import Mathlib

/-!
Verification development for the MongoDB aggregation-pipeline compiler
(`src/connectors/mongodb/aggregation_builder.rs`).

The Rust source is shallowly embedded: JSON values, BSON values, the typed
Value model, the scalar parsers, the where-filter compiler, the pipeline
assembler and the unique-where validator are translated into executable Lean
definitions.  Machine-integer casts (`as i32` / `as i64`, usize wrapping)
are modelled with explicit arithmetic modulo powers of two.  Fallible Rust
code (`Result`) is modelled with an explicit three-way result type in which
`fatal` stands for a process abort (`panic!`, `todo!`, `unwrap` on a missing
value), distinct from a recoverable typed error.
-/

namespace Agg

/-- Error kinds of `ActionError` that the aggregation builder can produce
(`src/error.rs` is outside the embedded sources; the kinds are taken from the
constructor calls appearing in `aggregation_builder.rs`). -/
inductive ActionError where
  | wrongInputType
  | wrongDateFormat
  | wrongDatetimeFormat
  | undefinedEnumValue
  | keysUnallowed
  | missingInputSection
  | wrongJsonFormat
  | fieldIsNotUnique
  | invalidQueryInput (msg : String)
deriving DecidableEq, Repr

/-- Result of running a piece of the compiler: a value, a recoverable typed
error (Rust `Err(ActionError)`), or a fatal abort (`panic!`, `todo!`,
`Option::unwrap` on `None`). -/
inductive Res (α : Type) where
  | ok (val : α)
  | err (e : ActionError)
  | fatal
deriving Repr

/-- A JSON value as seen through `serde_json`.  Integer literals are kept as
mathematical integers; `serde_json` stores them as `i64`/`u64`, so a value
produced by the parser always satisfies `-2^63 ≤ i < 2^64`.  Floating-point
literals are modelled as rationals (no claim in this development depends on
binary floating-point rounding). -/
inductive Json where
  | null
  | bool (b : Bool)
  | intNum (i : Int)
  | floatNum (q : Rat)
  | str (s : String)
  | arr (elems : List Json)
  | obj (entries : List (String × Json))

/-- `serde_json::Value::is_i64`: an integer representable as `i64`. -/
def Json.isI64 : Json → Bool
  | .intNum i => decide (-(2 ^ 63) ≤ i) && decide (i < 2 ^ 63)
  | _ => false

/-- `serde_json::Value::is_u64`: a non-negative integer. -/
def Json.isU64 : Json → Bool
  | .intNum i => decide (0 ≤ i)
  | _ => false

/-- `serde_json::Value::is_f64`: a floating-point number. -/
def Json.isF64 : Json → Bool
  | .floatNum _ => true
  | _ => false

def Json.isString : Json → Bool
  | .str _ => true
  | _ => false

def Json.isBoolean : Json → Bool
  | .bool _ => true
  | _ => false

def Json.isObject : Json → Bool
  | .obj _ => true
  | _ => false

def Json.asStr : Json → Option String
  | .str s => some s
  | _ => none

def Json.asBool : Json → Option Bool
  | .bool b => some b
  | _ => none

def Json.asArray : Json → Option (List Json)
  | .arr xs => some xs
  | _ => none

def Json.asObject : Json → Option (List (String × Json))
  | .obj kvs => some kvs
  | _ => none

/-- `serde_json::Value::as_u64`. -/
def Json.asU64 : Json → Option Nat
  | .intNum i => if 0 ≤ i then some i.toNat else none
  | _ => none

/-- `Map::get` on a JSON object's entry list (object keys are unique, so the
first match is the match). -/
def jsonGet (kvs : List (String × Json)) (k : String) : Option Json :=
  (kvs.find? (fun p => p.1 == k)).map (fun p => p.2)

/-- Reduction of a `Nat` modulo `2^64` followed by reinterpretation as a
two's-complement `i64` (the Rust cast `usize as i64` / `u64 as i64`). -/
def toI64 (n : Nat) : Int :=
  let m : Nat := n % 2 ^ 64
  if m < 2 ^ 63 then (m : Int) else (m : Int) - 2 ^ 64

/-- Two's-complement wrap of a mathematical integer into the `i64` range
(the Rust cast `i128 as i64`). -/
def wrapI64 (i : Int) : Int :=
  (i + 2 ^ 63).emod (2 ^ 64) - 2 ^ 63

/-- Truncation toward zero of a rational, saturated to the `i64` range (the
Rust cast `f64 as i64`). -/
def ratTruncSatI64 (q : Rat) : Int :=
  let t : Int := if 0 ≤ q then q.floor else q.ceil
  if t < -(2 ^ 63) then -(2 ^ 63)
  else if t > 2 ^ 63 - 1 then 2 ^ 63 - 1
  else t

/-- A BSON value, covering the constructors used by the aggregation builder.
`dateTime` carries milliseconds since the Unix epoch; `double` is modelled as
a rational (see `Json`). -/
inductive Bson where
  | null
  | objectId (hex : String)
  | bool (b : Bool)
  | int32 (i : Int)
  | int64 (i : Int)
  | double (q : Rat)
  | string (s : String)
  | dateTime (millis : Int)
  | regex (pattern : String) (options : String)
  | array (elems : List Bson)
  | document (fields : List (String × Bson))

/-- A BSON document: an ordered association list, as in the `bson` crate. -/
abbrev BDoc := List (String × Bson)

/-- Key lookup in a BSON document (`Document::get`). -/
def docGet (d : BDoc) (k : String) : Option Bson :=
  (d.find? (fun p => p.1 == k)).map (fun p => p.2)

/-- `Document::insert`: replaces the value in place when the key is already
present (keeping its position), otherwise appends the pair at the end. -/
def docInsert (d : BDoc) (k : String) (v : Bson) : BDoc :=
  if d.any (fun p => p.1 == k) then
    d.map (fun p => if p.1 == k then (k, v) else p)
  else
    d ++ [(k, v)]

/-- Validity of a MongoDB object-id string accepted by
`ObjectId::parse_str`: exactly 24 hexadecimal characters. -/
def oidValid (s : String) : Bool :=
  s.length == 24 && s.toList.all (fun c =>
    c.isDigit || (decide ('a' ≤ c) && decide (c ≤ 'f')) || (decide ('A' ≤ c) && decide (c ≤ 'F')))

/-- Modelled from the spec: the typed `Value` model (`src/core/value.rs` is
not among the embedded sources; the variant list mirrors spec §3 and the
match arms of `to_bson_value`).  `date` carries the day count since the Unix
epoch (a calendar day), `dateTime` carries milliseconds since the Unix
epoch.  The `decimal` and `object` payloads are irrelevant to the codec
(which aborts on them) and are omitted. -/
inductive Value where
  | null
  | objectId (s : String)
  | bool (b : Bool)
  | i8 (v : Int)
  | i16 (v : Int)
  | i32 (v : Int)
  | i64 (v : Int)
  | i128 (v : Int)
  | u8 (v : Nat)
  | u16 (v : Nat)
  | u32 (v : Nat)
  | u64 (v : Nat)
  | u128 (v : Nat)
  | f32 (v : Rat)
  | f64 (v : Rat)
  | string (s : String)
  | decimal
  | date (epochDays : Int)
  | dateTime (millis : Int)
  | vec (elems : List Value)
  | map (entries : List (String × Value))
  | object

mutual

/-- `impl ToBsonValue for Value`, `to_bson_value`.  The `ObjectId` arm
re-parses the stored string and `unwrap`s (fatal when the string is not a
valid object id); `Decimal` is `todo!()` and `Object` is `panic!()` — both
fatal.  The `Date` arm formats the day as `%Y-%m-%d` and feeds that string
to `BsonDateTime::parse_rfc3339_str`; RFC 3339 requires a full
date-`T`-time-offset form, so the parse rejects the date-only string and the
`unwrap` aborts on every calendar day — the arm never produces the intended
midnight-UTC timestamp. -/
def toBsonValue : Value → Res Bson
  | .null => .ok .null
  | .objectId s => if oidValid s then .ok (.objectId s) else .fatal
  | .bool b => .ok (.bool b)
  | .i8 v => .ok (.int32 v)
  | .i16 v => .ok (.int32 v)
  | .i32 v => .ok (.int32 v)
  | .i64 v => .ok (.int64 v)
  | .i128 v => .ok (.int64 (wrapI64 v))
  | .u8 v => .ok (.int32 v)
  | .u16 v => .ok (.int32 v)
  | .u32 v => .ok (.int64 v)
  | .u64 v => .ok (.int64 (toI64 v))
  | .u128 v => .ok (.int64 (toI64 v))
  | .f32 v => .ok (.double v)
  | .f64 v => .ok (.double v)
  | .string s => .ok (.string s)
  | .decimal => .fatal
  | .date _ => .fatal
  | .dateTime m => .ok (.dateTime m)
  | .vec xs =>
      match toBsonValues xs with
      | .ok bs => .ok (.array bs)
      | .err e => .err e
      | .fatal => .fatal
  | .map kvs =>
      match toBsonPairs kvs with
      | .ok d => .ok (.document d)
      | .err e => .err e
      | .fatal => .fatal
  | .object => .fatal

/-- Element-wise conversion of a `Vec` payload. -/
def toBsonValues : List Value → Res (List Bson)
  | [] => .ok []
  | v :: rest =>
      match toBsonValue v with
      | .ok b =>
          match toBsonValues rest with
          | .ok bs => .ok (b :: bs)
          | .err e => .err e
          | .fatal => .fatal
      | .err e => .err e
      | .fatal => .fatal

/-- Entry-wise conversion of a `Map` payload (`doc.insert` on fresh keys
appends in iteration order). -/
def toBsonPairs : List (String × Value) → Res BDoc
  | [] => .ok []
  | (k, v) :: rest =>
      match toBsonValue v with
      | .ok b =>
          match toBsonPairs rest with
          | .ok d => .ok ((k, b) :: d)
          | .err e => .err e
          | .fatal => .fatal
      | .err e => .err e
      | .fatal => .fatal

end

/-- Field types dispatched on by the filter compiler (`FieldType` in
`src/core/field_type.rs`, taken from the match arms of
`parse_bson_where_entry`; the payloads of `Vec`/`Map`/`Object` are never
inspected — those arms abort — and are omitted). -/
inductive FieldType where
  | undefined
  | objectId
  | bool
  | i8
  | i16
  | i32
  | i64
  | i128
  | u8
  | u16
  | u32
  | u64
  | u128
  | f32
  | f64
  | decimal
  | string
  | date
  | dateTime
  | enumOf (name : String)
  | vec
  | map
  | object
deriving DecidableEq, Repr

/-- Modelled from the spec: a schema field (`src/core/field.rs` is not among
the embedded sources).  Carries the logical name, the storage column name and
the field type — the members `aggregation_builder.rs` reads. -/
structure Field where
  name : String
  columnName : String
  fieldType : FieldType

/-- Modelled from the spec: a relation declaration (`src/core/model.rs` is
not among the embedded sources).  Members read by the lookup builder. -/
structure Relation where
  name : String
  model : String
  fields : List String
  references : List String
  through : Option String

/-- Modelled from the spec: a schema model (`src/core/model.rs` is not among
the embedded sources).  `uniqueQueryKeys` is the set of key-sets uniquely
identifying a record; sets are carried as lists compared up to membership. -/
structure Model where
  name : String
  tableName : String
  fields : List Field
  relations : List Relation
  queryKeys : List String
  uniqueQueryKeys : List (List String)

/-- `Model::field`. -/
def Model.field (m : Model) (k : String) : Option Field :=
  m.fields.find? (fun f => f.name == k)

/-- `Model::relation`. -/
def Model.relation (m : Model) (k : String) : Option Relation :=
  m.relations.find? (fun r => r.name == k)

/-- Modelled from the spec: the schema-wide registry (`src/core/graph.rs` is
not among the embedded sources).  `Graph::model` returns a model for every
name (spec §6) and `Graph::enum` returns the allowed member strings of an
enum. -/
structure Graph where
  modelFn : String → Model
  enumFn : String → List String

/-- `Graph::model`. -/
def Graph.model (g : Graph) (n : String) : Model := g.modelFn n

/-- `Graph::enum`. -/
def Graph.enumValues (g : Graph) (n : String) : List String := g.enumFn n

/-- Set-equality of two key lists (Rust compares `HashSet<String>`s). -/
def strSetEq (a b : List String) : Bool :=
  a.all (fun x => b.contains x) && b.all (fun x => a.contains x)

/-- `parse_object_id`. -/
def parseObjectId (value : Json) : Res Bson :=
  match value.asStr with
  | some val => if oidValid val then .ok (.objectId val) else .err .wrongInputType
  | none => .err .wrongInputType

/-- `has_i_mode`: the operator object carries `mode: "caseInsensitive"`. -/
def hasIMode (mp : List (String × Json)) : Bool :=
  match jsonGet mp "mode" with
  | some val =>
      match val.asStr with
      | some s => s == "caseInsensitive"
      | none => false
  | none => false

/-- `parse_string`. -/
def parseString (value : Json) : Res Bson :=
  match value.asStr with
  | some val => .ok (.string val)
  | none => .err .wrongInputType

/-- `parse_bool`. -/
def parseBool (value : Json) : Res Bson :=
  match value.asBool with
  | some val => .ok (.bool val)
  | none => .err .wrongInputType

/-- `parse_i64`. -/
def parseI64 (value : Json) : Res Bson :=
  if value.isI64 then
    match value with
    | .intNum i => .ok (.int64 i)
    | _ => .fatal
  else if value.isU64 then
    match value with
    | .intNum i => .ok (.int64 (toI64 i.toNat))
    | _ => .fatal
  else if value.isF64 then
    match value with
    | .floatNum q => .ok (.int64 (ratTruncSatI64 q))
    | _ => .fatal
  else
    .err .wrongInputType

/-- `parse_f64`. -/
def parseF64 (value : Json) : Res Bson :=
  if value.isI64 then
    match value with
    | .intNum i => .ok (.double (i : Rat))
    | _ => .fatal
  else if value.isU64 then
    match value with
    | .intNum i => .ok (.double (i : Rat))
    | _ => .fatal
  else if value.isF64 then
    match value with
    | .floatNum q => .ok (.double q)
    | _ => .fatal
  else
    .err .wrongInputType

/-- Is the month/day pair valid in the given year (proleptic Gregorian). -/
def daysInMonth (y : Int) (m : Nat) : Nat :=
  if m == 2 then
    if y % 4 == 0 && (y % 100 != 0 || y % 400 == 0) then 29 else 28
  else if m == 4 || m == 6 || m == 9 || m == 11 then 30
  else 31

/-- Day count since the Unix epoch of a civil date (standard
days-from-civil computation over the proleptic Gregorian calendar). -/
def daysFromCivil (y : Int) (m d : Nat) : Int :=
  let y' : Int := if m ≤ 2 then y - 1 else y
  let era : Int := Int.fdiv y' 400
  let yoe : Int := y' - era * 400
  let mp : Int := ((m : Int) + 9) % 12
  let doy : Int := (153 * mp + 2).fdiv 5 + (d : Int) - 1
  let doe : Int := yoe * 365 + yoe.fdiv 4 - yoe.fdiv 100 + doy
  era * 146097 + doe - 719468

/-- All characters of the string are decimal digits (and there is one). -/
def allDigits (cs : List Char) : Bool :=
  !cs.isEmpty && cs.all (fun c => c.isDigit)

/-- Numeric value of a digit list. -/
def digitsToNat (cs : List Char) : Nat :=
  cs.foldl (fun acc c => acc * 10 + (c.toNat - '0'.toNat)) 0

/-- Splits a character list at every occurrence of the separator (the
separator is dropped; structural recursion so that concrete parses reduce
definitionally). -/
def splitOnChar (sep : Char) : List Char → List (List Char)
  | [] => [[]]
  | x :: rest =>
      match splitOnChar sep rest with
      | [] => [[x]]
      | h :: t => if x == sep then [] :: h :: t else (x :: h) :: t

/-- Modelled from the spec: `NaiveDate::parse_from_str(s, "%Y-%m-%d")`
(the `chrono` crate is external).  Accepts `YYYY-MM-DD` with a four-digit
year and one- or two-digit month and day naming a valid civil date, and
returns the day count since the Unix epoch. -/
def parseDateStr (s : String) : Option Int :=
  match splitOnChar '-' s.toList with
  | [yc, mc, dc] =>
      if allDigits yc && yc.length == 4 && allDigits mc && mc.length ≤ 2 &&
          allDigits dc && dc.length ≤ 2 then
        let y : Int := (digitsToNat yc : Int)
        let m := digitsToNat mc
        let d := digitsToNat dc
        if 1 ≤ m && m ≤ 12 && 1 ≤ d && d ≤ daysInMonth y m then
          some (daysFromCivil y m d)
        else none
      else none
  | _ => none

/-- `parse_date`: a string is parsed as `%Y-%m-%d`, turned into a
`Value::Date` and routed through the codec — whose `Date` arm aborts
fatally (see `toBsonValue`), so every well-formed date string is fatal;
parse failure is `WrongDateFormat`, a non-string is `WrongInputType`. -/
def parseDate (value : Json) : Res Bson :=
  match value with
  | .str s =>
      match parseDateStr s with
      | some d => toBsonValue (.date d)
      | none => .err .wrongDateFormat
  | _ => .err .wrongInputType

/-- Digits of fixed width. -/
def fixedNat (cs : List Char) (w : Nat) : Option Nat :=
  if cs.length == w && cs.all (fun c => c.isDigit) then some (digitsToNat cs) else none

/-- Modelled from the spec: `DateTime::parse_from_rfc3339` (the `chrono`
crate is external).  Accepts `YYYY-MM-DDTHH:MM:SS[.fff][Z|±HH:MM]` naming a
valid instant and returns milliseconds since the Unix epoch, normalised to
UTC.  Fractions beyond milliseconds are truncated. -/
def parseRfc3339 (s : String) : Option Int :=
  match s.splitOn "T" with
  | [dpart, tpart] =>
      match parseDateStr dpart with
      | none => none
      | some days =>
          let (core, offMin?) :=
            if tpart.endsWith "Z" then (tpart.dropRight 1, some (0 : Int))
            else match tpart.splitOn "+" with
              | [c, o] =>
                  (c, (match o.splitOn ":" with
                       | [oh, om] =>
                           match fixedNat oh.toList 2, fixedNat om.toList 2 with
                           | some h, some m => some ((h * 60 + m : Nat) : Int)
                           | _, _ => none
                       | _ => none))
              | _ =>
                  match tpart.splitOn "-" with
                  | [c, o] =>
                      (c, (match o.splitOn ":" with
                           | [oh, om] =>
                               match fixedNat oh.toList 2, fixedNat om.toList 2 with
                               | some h, some m => some (-((h * 60 + m : Nat) : Int))
                               | _, _ => none
                           | _ => none))
                  | _ => (tpart, none)
          match offMin? with
          | none => none
          | some offMin =>
              let (hms, frac) :=
                match core.splitOn "." with
                | [h, f] => (h, some f)
                | [h] => (h, none)
                | _ => ("", none)
              match hms.splitOn ":" with
              | [hh, mm, ss] =>
                  match fixedNat hh.toList 2, fixedNat mm.toList 2, fixedNat ss.toList 2 with
                  | some h, some mi, some sec =>
                      if h ≤ 23 && mi ≤ 59 && sec ≤ 59 then
                        let fracMs : Int :=
                          match frac with
                          | none => 0
                          | some f => ((digitsToNat (f.toList.take 3) *
                              10 ^ (3 - min 3 f.length) : Nat) : Int)
                        let fracOk :=
                          match frac with
                          | none => true
                          | some f => allDigits f.toList
                        if fracOk then
                          some ((days * 86400 + (h : Int) * 3600 + (mi : Int) * 60 +
                            (sec : Int) - offMin * 60) * 1000 + fracMs)
                        else none
                      else none
                  | _, _, _ => none
              | _ => none
  | _ => none

/-- `parse_datetime`: a string is parsed as RFC 3339, normalised to UTC,
turned into a `Value::DateTime` and encoded through the codec; parse failure
is `WrongDatetimeFormat`, a non-string is `WrongInputType`. -/
def parseDatetime (value : Json) : Res Bson :=
  match value with
  | .str s =>
      match parseRfc3339 s with
      | some ms => toBsonValue (.dateTime ms)
      | none => .err .wrongDatetimeFormat
  | _ => .err .wrongInputType

/-- `parse_enum`: a string that is a member of the named enum's value list. -/
def parseEnum (value : Json) (enumName : String) (g : Graph) : Res Bson :=
  match value with
  | .str s =>
      if (g.enumValues enumName).contains s then .ok (.string s)
      else .err .undefinedEnumValue
  | _ => .err .wrongInputType

/-- Characters the `regex` crate's `escape` prefixes with a backslash
(its meta-character set). -/
def regexMetaChars : List Char :=
  ['\\', '.', '+', '*', '?', '(', ')', '|', '[', ']', '\x7b', '\x7d',
   '^', '$', '#', '&', '-', '~']

/-- `regex::escape`: every meta character is preceded by a backslash. -/
def regexEscape (s : String) : String :=
  String.mk (List.flatten (s.toList.map (fun c =>
    if regexMetaChars.contains c then ['\\', c] else [c])))

/-- Element-wise parse of the array payload of an `in`/`notIn` operator,
stopping at the first error (the `for val in arr_val` loops). -/
def parseArrayWith (p : Json → Res Bson) : List Json → Res (List Bson)
  | [] => .ok []
  | v :: rest =>
      match p v with
      | .ok b =>
          match parseArrayWith p rest with
          | .ok bs => .ok (b :: bs)
          | .err e => .err e
          | .fatal => .fatal
      | .err e => .err e
      | .fatal => .fatal

/-- The operator loop shared verbatim by the `ObjectId`, integer, float,
`Date` and `DateTime` arms of `parse_bson_where_entry`, parameterised by the
element parser: `equals` and `not` both insert `$eq`; `gt`, `gte`, `lt` and
`lte` all insert `$gt`; `in`/`notIn` insert `$in`/`$nin` over the
element-wise parsed array; any other key is `WrongInputType`. -/
def orderedOpsLoop (p : Json → Res Bson) : List (String × Json) → BDoc → Res BDoc
  | [], acc => .ok acc
  | (key, value) :: rest, acc =>
      if key == "equals" then
        match p value with
        | .ok b => orderedOpsLoop p rest (docInsert acc "$eq" b)
        | .err e => .err e
        | .fatal => .fatal
      else if key == "not" then
        match p value with
        | .ok b => orderedOpsLoop p rest (docInsert acc "$eq" b)
        | .err e => .err e
        | .fatal => .fatal
      else if key == "gt" then
        match p value with
        | .ok b => orderedOpsLoop p rest (docInsert acc "$gt" b)
        | .err e => .err e
        | .fatal => .fatal
      else if key == "gte" then
        match p value with
        | .ok b => orderedOpsLoop p rest (docInsert acc "$gt" b)
        | .err e => .err e
        | .fatal => .fatal
      else if key == "lt" then
        match p value with
        | .ok b => orderedOpsLoop p rest (docInsert acc "$gt" b)
        | .err e => .err e
        | .fatal => .fatal
      else if key == "lte" then
        match p value with
        | .ok b => orderedOpsLoop p rest (docInsert acc "$gt" b)
        | .err e => .err e
        | .fatal => .fatal
      else if key == "in" then
        match value.asArray with
        | some arrVal =>
            match parseArrayWith p arrVal with
            | .ok arr => orderedOpsLoop p rest (docInsert acc "$in" (.array arr))
            | .err e => .err e
            | .fatal => .fatal
        | none => .err .wrongInputType
      else if key == "notIn" then
        match value.asArray with
        | some arrVal =>
            match parseArrayWith p arrVal with
            | .ok arr => orderedOpsLoop p rest (docInsert acc "$nin" (.array arr))
            | .err e => .err e
            | .fatal => .fatal
        | none => .err .wrongInputType
      else
        .err .wrongInputType

/-- The operator loop of the `Bool` arm: only `equals` and `not`, both
inserting `$eq`. -/
def boolOpsLoop : List (String × Json) → BDoc → Res BDoc
  | [], acc => .ok acc
  | (key, value) :: rest, acc =>
      if key == "equals" then
        match parseBool value with
        | .ok b => boolOpsLoop rest (docInsert acc "$eq" b)
        | .err e => .err e
        | .fatal => .fatal
      else if key == "not" then
        match parseBool value with
        | .ok b => boolOpsLoop rest (docInsert acc "$eq" b)
        | .err e => .err e
        | .fatal => .fatal
      else
        .err .wrongInputType

/-- Unwraps the string payload of a parsed `Bson::String` the way the Rust
code does with `.as_str().unwrap()` after `parse_string` (always a string
when `parse_string` succeeded). -/
def bsonAsStr : Bson → Option String
  | .string s => some s
  | _ => none

/-- The operator loop of the `String` arm: the shared ordered operators plus
the regex operators (`contains` escaped, `startsWith` escaped and anchored
with `^`, `endsWith` escaped and anchored with `$`, `matches` verbatim),
each consulting `has_i_mode` on the whole operator object for the `i`
option; the `mode` key itself is a no-op. -/
def stringOpsLoop (mp : List (String × Json)) : List (String × Json) → BDoc → Res BDoc
  | [], acc => .ok acc
  | (key, value) :: rest, acc =>
      if key == "equals" then
        match parseString value with
        | .ok b => stringOpsLoop mp rest (docInsert acc "$eq" b)
        | .err e => .err e
        | .fatal => .fatal
      else if key == "not" then
        match parseString value with
        | .ok b => stringOpsLoop mp rest (docInsert acc "$eq" b)
        | .err e => .err e
        | .fatal => .fatal
      else if key == "gt" then
        match parseString value with
        | .ok b => stringOpsLoop mp rest (docInsert acc "$gt" b)
        | .err e => .err e
        | .fatal => .fatal
      else if key == "gte" then
        match parseString value with
        | .ok b => stringOpsLoop mp rest (docInsert acc "$gt" b)
        | .err e => .err e
        | .fatal => .fatal
      else if key == "lt" then
        match parseString value with
        | .ok b => stringOpsLoop mp rest (docInsert acc "$gt" b)
        | .err e => .err e
        | .fatal => .fatal
      else if key == "lte" then
        match parseString value with
        | .ok b => stringOpsLoop mp rest (docInsert acc "$gt" b)
        | .err e => .err e
        | .fatal => .fatal
      else if key == "in" then
        match value.asArray with
        | some arrVal =>
            match parseArrayWith parseString arrVal with
            | .ok arr => stringOpsLoop mp rest (docInsert acc "$in" (.array arr))
            | .err e => .err e
            | .fatal => .fatal
        | none => .err .wrongInputType
      else if key == "notIn" then
        match value.asArray with
        | some arrVal =>
            match parseArrayWith parseString arrVal with
            | .ok arr => stringOpsLoop mp rest (docInsert acc "$nin" (.array arr))
            | .err e => .err e
            | .fatal => .fatal
        | none => .err .wrongInputType
      else if key == "contains" then
        match parseString value with
        | .ok b =>
            match bsonAsStr b with
            | some s =>
                let rg := Bson.regex (regexEscape s)
                  (if hasIMode mp then "i" else "")
                stringOpsLoop mp rest (docInsert acc "$regex" rg)
            | none => .fatal
        | .err e => .err e
        | .fatal => .fatal
      else if key == "startsWith" then
        match parseString value with
        | .ok b =>
            match bsonAsStr b with
            | some s =>
                let rg := Bson.regex ("^" ++ regexEscape s)
                  (if hasIMode mp then "i" else "")
                stringOpsLoop mp rest (docInsert acc "$regex" rg)
            | none => .fatal
        | .err e => .err e
        | .fatal => .fatal
      else if key == "endsWith" then
        match parseString value with
        | .ok b =>
            match bsonAsStr b with
            | some s =>
                let rg := Bson.regex (regexEscape s ++ "$")
                  (if hasIMode mp then "i" else "")
                stringOpsLoop mp rest (docInsert acc "$regex" rg)
            | none => .fatal
        | .err e => .err e
        | .fatal => .fatal
      else if key == "matches" then
        match parseString value with
        | .ok b =>
            match bsonAsStr b with
            | some s =>
                let rg := Bson.regex s (if hasIMode mp then "i" else "")
                stringOpsLoop mp rest (docInsert acc "$regex" rg)
            | none => .fatal
        | .err e => .err e
        | .fatal => .fatal
      else if key == "mode" then
        stringOpsLoop mp rest acc
      else
        .err .wrongInputType

/-- Pushes one parse result per element of the array payload, but — exactly
as the Rust loop does — parses the *whole* operator value (the array itself)
each time, because the loop body reads `value`, not the loop variable
`val`. -/
def enumRepeatParse (origValue : Json) (enumName : String) (g : Graph) :
    List Json → Res (List Bson)
  | [] => .ok []
  | _ :: rest =>
      match parseEnum origValue enumName g with
      | .ok b =>
          match enumRepeatParse origValue enumName g rest with
          | .ok bs => .ok (b :: bs)
          | .err e => .err e
          | .fatal => .fatal
      | .err e => .err e
      | .fatal => .fatal

/-- The operator loop of the `Enum` arm: `equals`/`not` insert `$eq`;
`in`/`notIn` insert `$in`/`$nin` built by `enumRepeatParse` (which carries
the source's loop-variable slip). -/
def enumOpsLoop (enumName : String) (g : Graph) :
    List (String × Json) → BDoc → Res BDoc
  | [], acc => .ok acc
  | (key, value) :: rest, acc =>
      if key == "equals" then
        match parseEnum value enumName g with
        | .ok b => enumOpsLoop enumName g rest (docInsert acc "$eq" b)
        | .err e => .err e
        | .fatal => .fatal
      else if key == "not" then
        match parseEnum value enumName g with
        | .ok b => enumOpsLoop enumName g rest (docInsert acc "$eq" b)
        | .err e => .err e
        | .fatal => .fatal
      else if key == "in" then
        match value.asArray with
        | some arrVal =>
            match enumRepeatParse value enumName g arrVal with
            | .ok arr => enumOpsLoop enumName g rest (docInsert acc "$in" (.array arr))
            | .err e => .err e
            | .fatal => .fatal
        | none => .err .wrongInputType
      else if key == "notIn" then
        match value.asArray with
        | some arrVal =>
            match enumRepeatParse value enumName g arrVal with
            | .ok arr => enumOpsLoop enumName g rest (docInsert acc "$nin" (.array arr))
            | .err e => .err e
            | .fatal => .fatal
        | none => .err .wrongInputType
      else
        .err .wrongInputType

/-- `parse_bson_where_entry`: dispatch on the field type; a bare scalar is a
shorthand equality value, an object is run through the type's operator loop;
`Undefined`, `Decimal`, `Vec`, `Map` and `Object` arms abort
(`panic!`/`todo!`). -/
def parseBsonWhereEntry (fieldType : FieldType) (value : Json) (g : Graph) : Res Bson :=
  match fieldType with
  | .undefined => .fatal
  | .objectId =>
      if value.isString then parseObjectId value
      else
        match value with
        | .obj mp =>
            match orderedOpsLoop parseObjectId mp [] with
            | .ok d => .ok (.document d)
            | .err e => .err e
            | .fatal => .fatal
        | _ => .err .wrongInputType
  | .bool =>
      match value with
      | .bool b => .ok (.bool b)
      | .obj mp =>
          match boolOpsLoop mp [] with
          | .ok d => .ok (.document d)
          | .err e => .err e
          | .fatal => .fatal
      | _ => .err .wrongInputType
  | .i8 | .i16 | .i32 | .i64 | .i128 | .u8 | .u16 | .u32 | .u64 | .u128 =>
      if value.isI64 then
        match value with
        | .intNum i => .ok (.int64 i)
        | _ => .fatal
      else if value.isU64 then
        match value with
        | .intNum i => .ok (.int64 (toI64 i.toNat))
        | _ => .fatal
      else if value.isF64 then
        match value with
        | .floatNum q => .ok (.int64 (ratTruncSatI64 q))
        | _ => .fatal
      else
        match value with
        | .obj mp =>
            match orderedOpsLoop parseI64 mp [] with
            | .ok d => .ok (.document d)
            | .err e => .err e
            | .fatal => .fatal
        | _ => .err .wrongInputType
  | .f32 | .f64 =>
      if value.isI64 then
        match value with
        | .intNum i => .ok (.double (i : Rat))
        | _ => .fatal
      else if value.isU64 then
        match value with
        | .intNum i => .ok (.double (i : Rat))
        | _ => .fatal
      else if value.isF64 then
        match value with
        | .floatNum q => .ok (.double q)
        | _ => .fatal
      else
        match value with
        | .obj mp =>
            match orderedOpsLoop parseF64 mp [] with
            | .ok d => .ok (.document d)
            | .err e => .err e
            | .fatal => .fatal
        | _ => .err .wrongInputType
  | .decimal => .fatal
  | .string =>
      match value with
      | .str s => .ok (.string s)
      | .obj mp =>
          match stringOpsLoop mp mp [] with
          | .ok d => .ok (.document d)
          | .err e => .err e
          | .fatal => .fatal
      | _ => .err .wrongInputType
  | .date =>
      if value.isString then parseDate value
      else
        match value with
        | .obj mp =>
            match orderedOpsLoop parseDate mp [] with
            | .ok d => .ok (.document d)
            | .err e => .err e
            | .fatal => .fatal
        | _ => .err .wrongInputType
  | .dateTime =>
      if value.isString then parseDatetime value
      else
        match value with
        | .obj mp =>
            match orderedOpsLoop parseDatetime mp [] with
            | .ok d => .ok (.document d)
            | .err e => .err e
            | .fatal => .fatal
        | _ => .err .wrongInputType
  | .enumOf enumName =>
      if value.isString then parseEnum value enumName g
      else
        match value with
        | .obj mp =>
            match enumOpsLoop enumName g mp [] with
            | .ok d => .ok (.document d)
            | .err e => .err e
            | .fatal => .fatal
        | _ => .err .wrongInputType
  | .vec => .fatal
  | .map => .fatal
  | .object => .fatal

/-- The entry loop of `build_where_input`: reject keys outside the model's
query-able set, resolve the field (`unwrap` — fatal when missing), parse the
entry and fold it into the match document under the field's storage column
name. -/
def buildWhereEntries (m : Model) (g : Graph) :
    List (String × Json) → BDoc → Res BDoc
  | [], acc => .ok acc
  | (key, value) :: rest, acc =>
      if m.queryKeys.contains key then
        match m.field key with
        | none => .fatal
        | some f =>
            match parseBsonWhereEntry f.fieldType value g with
            | .ok b => buildWhereEntries m g rest (docInsert acc f.columnName b)
            | .err e => .err e
            | .fatal => .fatal
      else
        .err .keysUnallowed

/-- `build_where_input`: a missing where-section yields an empty match
document; a non-object where-value is `WrongJsonFormat`; otherwise the
entries are folded into one conjunction document. -/
def buildWhereInput (m : Model) (g : Graph) (w : Option Json) : Res BDoc :=
  match w with
  | none => .ok []
  | some wv =>
      match wv with
      | .obj entries => buildWhereEntries m g entries []
      | _ => .err .wrongJsonFormat

/-- `validate_where_unique`: a missing where-section is
`MissingInputSection`, a non-object where-value is `WrongJsonFormat`, and an
object whose key-set (as a set) matches none of the model's unique key-sets
is `FieldIsNotUnique`. -/
def validateWhereUnique (m : Model) (w : Option Json) : Res Unit :=
  match w with
  | none => .err .missingInputSection
  | some wv =>
      match wv with
      | .obj entries =>
          if m.uniqueQueryKeys.any (fun u => strSetEq (entries.map Prod.fst) u) then
            .ok ()
          else
            .err .fieldIsNotUnique
      | _ => .err .wrongJsonFormat

/-- `QueryPipelineType`. -/
inductive QueryPipelineType where
  | unique
  | first
  | many
deriving DecidableEq, Repr

/-- `unwrap_usize`: an absent section is `None`; a present one must be a
JSON `u64` (`as_u64().unwrap()` — fatal otherwise). -/
def unwrapUsize (value : Option Json) : Res (Option Nat) :=
  match value with
  | some v =>
      match v.asU64 with
      | some n => .ok (some n)
      | none => .fatal
  | none => .ok none

/-- The `$match`-stage surgery of `build_lookup_inputs`: ensure the stage's
`$match` document has an `$expr` document with an `$and` array, then extend
that array with the correlation equalities.  Each `unwrap`/`as_document`
step of the Rust chain is fatal when its shape assumption fails. -/
def fixInnerMatch (stage : BDoc) (eqValues : List BDoc) : Res BDoc :=
  match docGet stage "$match" with
  | some (.document m0) =>
      let m1 := if (docGet m0 "$expr").isSome then m0
        else docInsert m0 "$expr" (.document [])
      match docGet m1 "$expr" with
      | some (.document e0) =>
          let e1 := if (docGet e0 "$and").isSome then e0
            else docInsert e0 "$and" (.array [])
          match docGet e1 "$and" with
          | some (.array xs) =>
              let e2 := docInsert e1 "$and" (.array (xs ++ eqValues.map Bson.document))
              let m2 := docInsert m1 "$expr" (.document e2)
              .ok (docInsert stage "$match" (.document m2))
          | some _ => .fatal
          | none => .fatal
      | some _ => .fatal
      | none => .fatal
  | some _ => .fatal
  | none => .fatal

/-- The field/reference zipping loop of the direct-relation case: binds each
local field's storage column as a `let` variable named after the referenced
field, and records one `$eq` between the target's referenced column and the
bound variable.  Every `unwrap` on a missing field or a short reference list
is fatal. -/
def directPairsLoop (m : Model) (relModel : Model) (references : List String) :
    Nat → List String → BDoc → List BDoc → Res (BDoc × List BDoc)
  | _, [], letValue, eqValues => .ok (letValue, eqValues)
  | index, fieldName :: rest, letValue, eqValues =>
      match m.field fieldName with
      | none => .fatal
      | some f =>
          match references.get? index with
          | none => .fatal
          | some referenceName =>
              match relModel.field referenceName with
              | none => .fatal
              | some rf =>
                  directPairsLoop m relModel references (index + 1) rest
                    (docInsert letValue referenceName (.string ("$" ++ f.columnName)))
                    (eqValues ++ [[("$eq", Bson.array
                      [.string ("$" ++ rf.columnName),
                       .string ("$$" ++ referenceName)])]])

/-- The let/eq loop of the junction case binding the join table's own
columns (`outer`) or the target model's unique columns (`inner`).  The
`resolveCol` argument maps the referenced unique field to the column the
`$eq` compares (`owner.field(...).column_name()` resp.
`foreign.field(...).column_name()`); `eqLeft` selects which name appears on
the left of the `$eq` and in the `let` binding. -/
def junctionPairsLoop (owner : Model) (references : List String)
    (letFromOwnerCol : Bool) :
    Nat → List String → BDoc → List BDoc → Res (BDoc × List BDoc)
  | _, [], letValue, eqValues => .ok (letValue, eqValues)
  | index, jtName :: rest, letValue, eqValues =>
      match references.get? index with
      | none => .fatal
      | some uniqueName =>
          match owner.field uniqueName with
          | none => .fatal
          | some uf =>
              if letFromOwnerCol then
                junctionPairsLoop owner references letFromOwnerCol (index + 1) rest
                  (docInsert letValue jtName (.string ("$" ++ uf.columnName)))
                  (eqValues ++ [[("$eq", Bson.array
                    [.string ("$" ++ jtName), .string ("$$" ++ jtName)])]])
              else
                junctionPairsLoop owner references letFromOwnerCol (index + 1) rest
                  (docInsert letValue jtName (.string ("$" ++ jtName)))
                  (eqValues ++ [[("$eq", Bson.array
                    [.string ("$" ++ uf.columnName), .string ("$$" ++ jtName)])]])

mutual

/-- `build_query_pipeline`: match stage (only when non-empty), pagination
stages (the page-based `pageNumber`/`pageSize` branch takes the whole
`else`-free `if`, so raw `skip`/`take` is only consulted otherwise; the
`take` branch reads `skip.unwrap()` — fatal when `skip` is absent), then
lookup stages from the include section.  `usize` arithmetic wraps modulo
`2^64` (release-build semantics) and the stage payloads are `as i64` casts.
The `fuel` argument bounds the include-nesting recursion; the public
wrappers pass a bound larger than any reachable depth. -/
def buildQueryPipelineF (fuel : Nat) (m : Model) (g : Graph)
    (qtype : QueryPipelineType) (mutationMode : Bool)
    (w orderBy : Option Json) (takeArg skipArg pageSizeArg pageNumberArg : Option Nat)
    (includeArg selectArg : Option Json) : Res (List BDoc) :=
  match fuel with
  | 0 => .fatal
  | fuel + 1 =>
      match buildWhereInput m g w with
      | .err e => .err e
      | .fatal => .fatal
      | .ok matchDoc =>
          let retval : List BDoc :=
            if matchDoc.isEmpty then [] else [[("$match", .document matchDoc)]]
          let paginated : Res (List BDoc) :=
            match pageSizeArg, pageNumberArg with
            | some ps, some pn =>
                .ok (retval ++
                  [[("$skip", Bson.int64 (toI64 ((pn + (2 ^ 64 - 1)) * ps)))],
                   [("limit", Bson.int64 (toI64 ps))]])
            | _, _ =>
                let r1 :=
                  match skipArg with
                  | some sk => retval ++ [[("$skip", Bson.int64 (toI64 sk))]]
                  | none => retval
                match takeArg with
                | some _ =>
                    match skipArg with
                    | some sk => .ok (r1 ++ [[("$limit", Bson.int64 (toI64 sk))]])
                    | none => .fatal
                | none => .ok r1
          match paginated with
          | .err e => .err e
          | .fatal => .fatal
          | .ok staged =>
              match includeArg with
              | none => .ok staged
              | some inc =>
                  match buildLookupInputsF fuel m g qtype mutationMode inc with
                  | .ok lookups => .ok (staged ++ lookups)
                  | .err e => .err e
                  | .fatal => .fatal

/-- `build_lookup_inputs`: the include section must be an object; its
entries are compiled one by one. -/
def buildLookupInputsF (fuel : Nat) (m : Model) (g : Graph)
    (qtype : QueryPipelineType) (mutationMode : Bool) (includeV : Json) :
    Res (List BDoc) :=
  match fuel with
  | 0 => .fatal
  | fuel + 1 =>
      match includeV with
      | .obj entries => buildLookupEntriesF fuel m g qtype mutationMode entries
      | _ => .err (.invalidQueryInput
          ("'include' on model '" ++ m.name ++ "' is not an object. Please check your input."))

/-- The entry loop of `build_lookup_inputs`: each requested key must name a
declared relation and carry a boolean or object value; a direct relation
emits one correlated `$lookup` (merging correlation equalities into the
nested pipeline's `$match`), a junction relation emits the two-stage
lookup/unwind/replaceRoot construct. -/
def buildLookupEntriesF (fuel : Nat) (m : Model) (g : Graph)
    (qtype : QueryPipelineType) (mutationMode : Bool) :
    List (String × Json) → Res (List BDoc)
  | [] => .ok []
  | (key, value) :: rest =>
      match fuel with
      | 0 => .fatal
      | fuel + 1 =>
          match m.relation key with
          | none => .err (.invalidQueryInput
              ("Relation '" ++ key ++ "' on model '" ++ m.name ++
               "' is not exist. Please check your input."))
          | some rel =>
              let relationModel := g.model rel.model
              if value.isBoolean || value.isObject then
                match rel.through with
                | none =>
                    match directPairsLoop m relationModel rel.references 0 rel.fields [] [] with
                    | .err e => .err e
                    | .fatal => .fatal
                    | .ok (letValue, eqValues) =>
                        let innerRes : Res (List BDoc) :=
                          if value.isObject then
                            buildQueryPipelineFromJsonF fuel relationModel g qtype
                              mutationMode value
                          else .ok []
                        match innerRes with
                        | .err e => .err e
                        | .fatal => .fatal
                        | .ok innerPipeline =>
                            let matchIdx? := innerPipeline.findIdx?
                              (fun d => (docGet d "$match").isSome)
                            let innerMatch :=
                              match matchIdx? with
                              | some i => innerPipeline.getD i []
                              | none => [("$match", Bson.document [])]
                            match fixInnerMatch innerMatch eqValues with
                            | .err e => .err e
                            | .fatal => .fatal
                            | .ok fixedMatch =>
                                let newPipeline :=
                                  match matchIdx? with
                                  | some i => innerPipeline.set i fixedMatch
                                  | none => fixedMatch :: innerPipeline
                                let lookup : BDoc :=
                                  [("$lookup", Bson.document
                                    [("from", .string relationModel.tableName),
                                     ("as", .string key),
                                     ("let", .document letValue),
                                     ("pipeline", .array (newPipeline.map Bson.document))])]
                                match buildLookupEntriesF fuel m g qtype mutationMode rest with
                                | .ok more => .ok (lookup :: more)
                                | .err e => .err e
                                | .fatal => .fatal
                | some throughName =>
                    let joinModel := g.model throughName
                    match rel.fields.get? 0 with
                    | none => .fatal
                    | some localRelName =>
                        match joinModel.relation localRelName with
                        | none => .fatal
                        | some localRel =>
                            match rel.references.get? 0 with
                            | none => .fatal
                            | some foreignRelName =>
                                match joinModel.relation foreignRelName with
                                | none => .fatal
                                | some foreignRel =>
                                    let foreignModel := g.model foreignRel.model
                                    match junctionPairsLoop m localRel.references true
                                        0 localRel.fields [] [] with
                                    | .err e => .err e
                                    | .fatal => .fatal
                                    | .ok (outerLet, outerEqs) =>
                                        match junctionPairsLoop foreignModel
                                            foreignRel.references false
                                            0 foreignRel.fields [] [] with
                                        | .err e => .err e
                                        | .fatal => .fatal
                                        | .ok (innerLet, innerEqs) =>
                                            let innerLookup : BDoc :=
                                              [("$lookup", Bson.document
                                                [("from", .string foreignModel.tableName),
                                                 ("as", .string rel.name),
                                                 ("let", .document innerLet),
                                                 ("pipeline", .array
                                                   [.document [("$match", .document
                                                     [("$expr", .document
                                                       [("$and", .array
                                                         (innerEqs.map Bson.document))])])]])])]
                                            let target : BDoc :=
                                              [("$lookup", Bson.document
                                                [("from", .string joinModel.tableName),
                                                 ("as", .string rel.name),
                                                 ("let", .document outerLet),
                                                 ("pipeline", .array
                                                   [.document [("$match", .document
                                                     [("$expr", .document
                                                       [("$and", .array
                                                         (outerEqs.map Bson.document))])])],
                                                    .document innerLookup,
                                                    .document [("$unwind", .document
                                                      [("path", .string ("$" ++ rel.name))])],
                                                    .document [("$replaceRoot", .document
                                                      [("newRoot", .string ("$" ++ rel.name))])]])])]
                                            match buildLookupEntriesF fuel m g qtype
                                                mutationMode rest with
                                            | .ok more => .ok (target :: more)
                                            | .err e => .err e
                                            | .fatal => .fatal
              else
                .err (.invalidQueryInput
                  ("Relation '" ++ key ++ "' on model '" ++ m.name ++
                   "' has a unrecognized value. It's either a boolean or an object. Please check your input."))

/-- `build_query_pipeline_from_json`: the query description must be an
object; a unique lookup validates the where-section first; the pagination
sections are unwrapped (fatal when present but not a `u64`); in mutation
mode the include and select sections are ignored. -/
def buildQueryPipelineFromJsonF (fuel : Nat) (m : Model) (g : Graph)
    (qtype : QueryPipelineType) (mutationMode : Bool) (jsonValue : Json) :
    Res (List BDoc) :=
  match fuel with
  | 0 => .fatal
  | fuel + 1 =>
      match jsonValue with
      | .obj entries =>
          let w := jsonGet entries "where"
          let validated : Res Unit :=
            if qtype == QueryPipelineType.unique then validateWhereUnique m w
            else .ok ()
          match validated with
          | .err e => .err e
          | .fatal => .fatal
          | .ok _ =>
              let orderBy := jsonGet entries "orderBy"
              match unwrapUsize (jsonGet entries "take") with
              | .err e => .err e
              | .fatal => .fatal
              | .ok takeArg =>
                  match unwrapUsize (jsonGet entries "skip") with
                  | .err e => .err e
                  | .fatal => .fatal
                  | .ok skipArg =>
                      match unwrapUsize (jsonGet entries "pageNumber") with
                      | .err e => .err e
                      | .fatal => .fatal
                      | .ok pageNumberArg =>
                          match unwrapUsize (jsonGet entries "pageSize") with
                          | .err e => .err e
                          | .fatal => .fatal
                          | .ok pageSizeArg =>
                              let includeArg :=
                                if !mutationMode then jsonGet entries "include" else none
                              let selectArg :=
                                if !mutationMode then jsonGet entries "select" else none
                              buildQueryPipelineF fuel m g qtype mutationMode w orderBy
                                takeArg skipArg pageSizeArg pageNumberArg
                                includeArg selectArg
      | _ => .err (.invalidQueryInput "Query input should be an object.")

end

mutual

/-- Structural size of a JSON value (executable, used to pick a fuel
bound). -/
def Json.size : Json → Nat
  | .null => 1
  | .bool _ => 1
  | .intNum _ => 1
  | .floatNum _ => 1
  | .str _ => 1
  | .arr xs => 1 + Json.sizeList xs
  | .obj kvs => 1 + Json.sizePairs kvs

/-- Size of a JSON array's element list. -/
def Json.sizeList : List Json → Nat
  | [] => 1
  | j :: rest => Json.size j + Json.sizeList rest

/-- Size of a JSON object's entry list. -/
def Json.sizePairs : List (String × Json) → Nat
  | [] => 1
  | (_, j) :: rest => 1 + Json.size j + Json.sizePairs rest

end

/-- A fuel bound exceeding any recursion depth reachable from a JSON value
(each recursion step of the mutual block strictly descends into the include
object, so the structural size is a crude but safe bound). -/
def jsonFuel : Option Json → Nat
  | none => 8
  | some j => 4 * (Json.size j + 2)

/-- `build_query_pipeline` (public entry). -/
def buildQueryPipeline (m : Model) (g : Graph) (qtype : QueryPipelineType)
    (mutationMode : Bool) (w orderBy : Option Json)
    (takeArg skipArg pageSizeArg pageNumberArg : Option Nat)
    (includeArg selectArg : Option Json) : Res (List BDoc) :=
  buildQueryPipelineF (jsonFuel includeArg) m g qtype mutationMode w orderBy
    takeArg skipArg pageSizeArg pageNumberArg includeArg selectArg

/-- `build_query_pipeline_from_json` (public entry). -/
def buildQueryPipelineFromJson (m : Model) (g : Graph)
    (qtype : QueryPipelineType) (mutationMode : Bool) (jsonValue : Json) :
    Res (List BDoc) :=
  buildQueryPipelineFromJsonF (jsonFuel (some jsonValue)) m g qtype mutationMode jsonValue

/-- A model with no fields, used where the claims only exercise
schema-independent behaviour. -/
def emptyModel : Model :=
  { name := "Empty", tableName := "empties", fields := [], relations := [],
    queryKeys := [], uniqueQueryKeys := [] }

/-- A graph with no enums whose model registry answers `emptyModel`. -/
def emptyGraph : Graph :=
  { modelFn := fun _ => emptyModel, enumFn := fun _ => [] }

/-- A model with one query-able 32-bit integer field `age` stored under
column `age_col`. -/
def ageModel : Model :=
  { name := "User", tableName := "users",
    fields := [{ name := "age", columnName := "age_col", fieldType := .i32 }],
    relations := [], queryKeys := ["age"], uniqueQueryKeys := [] }

/-- The spec's example model `Post` with unique key-sets
`{{"id"}, {"slug"}}`. -/
def postModel : Model :=
  { name := "Post", tableName := "posts",
    fields := [{ name := "id", columnName := "_id", fieldType := .i32 },
               { name := "slug", columnName := "slug", fieldType := .string },
               { name := "title", columnName := "title", fieldType := .string }],
    relations := [], queryKeys := ["id", "slug", "title"],
    uniqueQueryKeys := [["id"], ["slug"]] }

/-- A graph declaring the enum `Color` with members `red` and `blue`. -/
def colorGraph : Graph :=
  { modelFn := fun _ => emptyModel,
    enumFn := fun n => if n == "Color" then ["red", "blue"] else [] }

/-- A model with one query-able calendar-day field `d` stored under column
`d_col`. -/
def dateModel : Model :=
  { name := "Event", tableName := "events",
    fields := [{ name := "d", columnName := "d_col", fieldType := .date }],
    relations := [], queryKeys := ["d"], uniqueQueryKeys := [] }

attribute [simp] Json.isI64 Json.isU64 Json.isF64 Json.isString Json.isBoolean
  Json.isObject Json.asStr Json.asBool Json.asArray Json.asObject

/-- The ordered field types of the filter compiler: object-id, the numeric
families, string, date and date-time. -/
def orderedFieldTypes : List FieldType :=
  [.objectId, .i8, .i16, .i32, .i64, .i128, .u8, .u16, .u32, .u64, .u128,
   .f32, .f64, .string, .date, .dateTime]

/-- The scalar field types carrying an `equals`/`not` operator pair in the
filter compiler: the ordered types plus booleans and enums. -/
def scalarFieldTypeB : FieldType → Bool
  | .objectId => true
  | .bool => true
  | .i8 | .i16 | .i32 | .i64 | .i128 | .u8 | .u16 | .u32 | .u64 | .u128 => true
  | .f32 | .f64 => true
  | .string => true
  | .date => true
  | .dateTime => true
  | .enumOf _ => true
  | _ => false

/-- C1: for every ordered field type (object-id, the numeric families,
string, date, date-time), the operator keys `gt`, `gte`, `lt` and `lte` all
compile to the same native predicate as `gt`; `gt` itself compiles to a
single `$gt` predicate whenever it succeeds; and in particular the filters
`{"age": {"gt": 30}}` and `{"age": {"gte": 30}}` against an integer field
compile to identical match documents. -/
theorem gt_gte_lt_lte_all_compile_to_gt :
    (∀ ft ∈ orderedFieldTypes, ∀ key ∈ (["gt", "gte", "lt", "lte"] : List String),
      ∀ (v : Json) (g : Graph),
        parseBsonWhereEntry ft (.obj [(key, v)]) g =
          parseBsonWhereEntry ft (.obj [("gt", v)]) g)
  ∧ (∀ g : Graph,
      buildWhereInput ageModel g (some (.obj [("age", .obj [("gt", .intNum 30)])])) =
        buildWhereInput ageModel g (some (.obj [("age", .obj [("gte", .intNum 30)])])))
  ∧ (∀ ft ∈ orderedFieldTypes, ∀ (v : Json) (g : Graph) (b : Bson),
      parseBsonWhereEntry ft (.obj [("gt", v)]) g = .ok b →
        ∃ p, b = .document [("$gt", p)]) := by
  refine ⟨?_, ?_, ?_⟩
  · intro ft hft key hkey v g
    fin_cases hft <;> fin_cases hkey <;> rfl
  · intro g
    rfl
  · intro ft hft v g b h
    fin_cases hft <;>
      simp only [parseBsonWhereEntry] at h <;>
      first
      | (cases hp : parseObjectId v <;> simp [orderedOpsLoop, hp, docInsert] at h <;>
          exact ⟨_, h.symm⟩)
      | (cases hp : parseI64 v <;> simp [orderedOpsLoop, hp, docInsert] at h <;>
          exact ⟨_, h.symm⟩)
      | (cases hp : parseF64 v <;> simp [orderedOpsLoop, hp, docInsert] at h <;>
          exact ⟨_, h.symm⟩)
      | (cases hp : parseString v <;> simp [stringOpsLoop, hp, docInsert] at h <;>
          exact ⟨_, h.symm⟩)
      | (cases hp : parseDate v <;> simp [orderedOpsLoop, hp, docInsert] at h <;>
          exact ⟨_, h.symm⟩)
      | (cases hp : parseDatetime v <;> simp [orderedOpsLoop, hp, docInsert] at h <;>
          exact ⟨_, h.symm⟩)

/-- Closed instance of `gt_gte_lt_lte_all_compile_to_gt` with its membership
hypotheses discharged at the integer field type and the `gte` key. -/
theorem gt_gte_lt_lte_all_compile_to_gt_witness :
    (FieldType.i32 ∈ orderedFieldTypes ∧ "gte" ∈ (["gt", "gte", "lt", "lte"] : List String))
  ∧ parseBsonWhereEntry .i32 (.obj [("gte", .intNum 30)]) emptyGraph =
      parseBsonWhereEntry .i32 (.obj [("gt", .intNum 30)]) emptyGraph
  ∧ (∃ p, Bson.document [("$gt", Bson.int64 30)] = .document [("$gt", p)]) :=
  ⟨⟨by decide, by decide⟩,
   gt_gte_lt_lte_all_compile_to_gt.1 .i32 (by decide) "gte" (by decide)
     (.intNum 30) emptyGraph,
   gt_gte_lt_lte_all_compile_to_gt.2.2 .i32 (by decide) (.intNum 30) emptyGraph
     (.document [("$gt", .int64 30)]) (by rfl)⟩

/-- C6: for every scalar field type, the operator key `not` compiles to
exactly the same native predicate as `equals`, and a successful `equals`
compilation is a single `$eq` predicate — so `not` is not negated. -/
theorem not_compiles_as_equals :
    ∀ ft, scalarFieldTypeB ft = true → ∀ (v : Json) (g : Graph),
      parseBsonWhereEntry ft (.obj [("not", v)]) g =
        parseBsonWhereEntry ft (.obj [("equals", v)]) g
  ∧ (∀ b, parseBsonWhereEntry ft (.obj [("equals", v)]) g = .ok b →
      ∃ p, b = .document [("$eq", p)]) := by
  intro ft hft v g
  cases ft <;> simp only [scalarFieldTypeB] at hft <;>
    refine ⟨rfl, ?_⟩ <;> intro b h <;>
    simp only [parseBsonWhereEntry] at h <;>
    first
    | (cases hp : parseObjectId v <;> simp [orderedOpsLoop, hp, docInsert] at h <;>
        exact ⟨_, h.symm⟩)
    | (cases hp : parseBool v <;> simp [boolOpsLoop, hp, docInsert] at h <;>
        exact ⟨_, h.symm⟩)
    | (cases hp : parseI64 v <;> simp [orderedOpsLoop, hp, docInsert] at h <;>
        exact ⟨_, h.symm⟩)
    | (cases hp : parseF64 v <;> simp [orderedOpsLoop, hp, docInsert] at h <;>
        exact ⟨_, h.symm⟩)
    | (cases hp : parseString v <;> simp [stringOpsLoop, hp, docInsert] at h <;>
        exact ⟨_, h.symm⟩)
    | (cases hp : parseDate v <;> simp [orderedOpsLoop, hp, docInsert] at h <;>
        exact ⟨_, h.symm⟩)
    | (cases hp : parseDatetime v <;> simp [orderedOpsLoop, hp, docInsert] at h <;>
        exact ⟨_, h.symm⟩)
    | (rename_i ename; cases hp : parseEnum v ename g <;>
        simp [enumOpsLoop, hp, docInsert] at h <;> exact ⟨_, h.symm⟩)

/-- Closed instance of `not_compiles_as_equals` at the boolean field type. -/
theorem not_compiles_as_equals_witness :
    scalarFieldTypeB .bool = true
  ∧ parseBsonWhereEntry .bool (.obj [("not", .bool true)]) emptyGraph =
      parseBsonWhereEntry .bool (.obj [("equals", .bool true)]) emptyGraph
  ∧ (∃ p, Bson.document [("$eq", Bson.bool true)] = .document [("$eq", p)]) :=
  ⟨by decide,
   (not_compiles_as_equals .bool (by decide) (.bool true) emptyGraph).1,
   (not_compiles_as_equals .bool (by decide) (.bool true) emptyGraph).2
     (.document [("$eq", .bool true)]) (by rfl)⟩

mutual

/-- A value every component of which the native codec can encode without
aborting: no `Decimal`, no opaque `Object`, no `Date` (whose encoding arm
always aborts — see `toBsonValue`), and every `ObjectId` payload a
well-formed object-id string. -/
def encodableValue : Value → Bool
  | .null => true
  | .objectId s => oidValid s
  | .bool _ => true
  | .i8 _ => true
  | .i16 _ => true
  | .i32 _ => true
  | .i64 _ => true
  | .i128 _ => true
  | .u8 _ => true
  | .u16 _ => true
  | .u32 _ => true
  | .u64 _ => true
  | .u128 _ => true
  | .f32 _ => true
  | .f64 _ => true
  | .string _ => true
  | .decimal => false
  | .date _ => false
  | .dateTime _ => true
  | .vec xs => encodableValues xs
  | .map kvs => encodablePairs kvs
  | .object => false

/-- Element-wise `encodableValue` over a `Vec` payload. -/
def encodableValues : List Value → Bool
  | [] => true
  | v :: rest => encodableValue v && encodableValues rest

/-- Entry-wise `encodableValue` over a `Map` payload. -/
def encodablePairs : List (String × Value) → Bool
  | [] => true
  | (_, v) :: rest => encodableValue v && encodablePairs rest

end

mutual

/-- The codec succeeds on every encodable value. -/
theorem toBsonValue_total :
    ∀ v : Value, encodableValue v = true → ∃ b, toBsonValue v = Res.ok b
  | .null, _ => ⟨_, rfl⟩
  | .objectId s, h => by
      simp only [encodableValue] at h
      exact ⟨.objectId s, by simp [toBsonValue, h]⟩
  | .bool _, _ => ⟨_, rfl⟩
  | .i8 _, _ => ⟨_, rfl⟩
  | .i16 _, _ => ⟨_, rfl⟩
  | .i32 _, _ => ⟨_, rfl⟩
  | .i64 _, _ => ⟨_, rfl⟩
  | .i128 _, _ => ⟨_, rfl⟩
  | .u8 _, _ => ⟨_, rfl⟩
  | .u16 _, _ => ⟨_, rfl⟩
  | .u32 _, _ => ⟨_, rfl⟩
  | .u64 _, _ => ⟨_, rfl⟩
  | .u128 _, _ => ⟨_, rfl⟩
  | .f32 _, _ => ⟨_, rfl⟩
  | .f64 _, _ => ⟨_, rfl⟩
  | .string _, _ => ⟨_, rfl⟩
  | .date _, h => by simp [encodableValue] at h
  | .dateTime _, _ => ⟨_, rfl⟩
  | .vec xs, h => by
      simp only [encodableValue] at h
      obtain ⟨bs, hbs⟩ := toBsonValues_total xs h
      exact ⟨.array bs, by simp [toBsonValue, hbs]⟩
  | .map kvs, h => by
      simp only [encodableValue] at h
      obtain ⟨d, hd⟩ := toBsonPairs_total kvs h
      exact ⟨.document d, by simp [toBsonValue, hd]⟩

/-- Element-wise totality over a `Vec` payload. -/
theorem toBsonValues_total :
    ∀ xs : List Value, encodableValues xs = true → ∃ bs, toBsonValues xs = Res.ok bs
  | [], _ => ⟨_, rfl⟩
  | v :: rest, h => by
      simp only [encodableValues, Bool.and_eq_true] at h
      obtain ⟨b, hb⟩ := toBsonValue_total v h.1
      obtain ⟨bs, hbs⟩ := toBsonValues_total rest h.2
      exact ⟨b :: bs, by simp [toBsonValues, hb, hbs]⟩

/-- Entry-wise totality over a `Map` payload. -/
theorem toBsonPairs_total :
    ∀ kvs : List (String × Value), encodablePairs kvs = true → ∃ d, toBsonPairs kvs = Res.ok d
  | [], _ => ⟨_, rfl⟩
  | (k, v) :: rest, h => by
      simp only [encodablePairs, Bool.and_eq_true] at h
      obtain ⟨b, hb⟩ := toBsonValue_total v h.1
      obtain ⟨d, hd⟩ := toBsonPairs_total rest h.2
      exact ⟨(k, b) :: d, by simp [toBsonPairs, hb, hd]⟩

end

/-- C2 (counterexample): the claim's totality assertion fails as stated — an
`ObjectId` value (a representable variant, neither `Decimal` nor opaque
`Object`) whose payload is not a well-formed object-id string drives the
codec into the fatal `unwrap` instead of returning a native value. -/
theorem to_bson_value_claim_cx :
    toBsonValue (Value.objectId "x") = Res.fatal
  ∧ ¬ ∃ b, toBsonValue (Value.objectId "x") = Res.ok b := by
  refine ⟨rfl, ?_⟩
  rintro ⟨b, hb⟩
  simp [toBsonValue, oidValid] at hb

/-- C2 (amended): the codec returns a native value on every value all of
whose components the codec can encode (no `Decimal`, no opaque `Object`, no
`Date`, every `ObjectId` payload well-formed); invoking it on `Decimal` or
opaque `Object` is a fatal abort; and a `Date` value does not encode as the
intended midnight-UTC timestamp — its encoding aborts fatally on every
calendar day, because the `%Y-%m-%d`-formatted day string is rejected by the
RFC 3339 parser and then unwrapped. -/
theorem to_bson_value_total_on_encodable :
    (∀ v : Value, encodableValue v = true → ∃ b, toBsonValue v = Res.ok b)
  ∧ toBsonValue .decimal = .fatal
  ∧ toBsonValue .object = .fatal
  ∧ (∀ d : Int, toBsonValue (.date d) = .fatal)
  ∧ (∀ d : Int, ¬ ∃ b, toBsonValue (.date d) = Res.ok b) :=
  ⟨toBsonValue_total, rfl, rfl, fun _ => rfl,
   fun _ h => by obtain ⟨b, hb⟩ := h; exact Res.noConfusion hb⟩

/-- Closed instance of `to_bson_value_total_on_encodable` at a concrete
compound value. -/
theorem to_bson_value_total_on_encodable_witness :
    encodableValue (Value.vec [Value.i32 5, Value.string "x",
      Value.map [("t", Value.dateTime 1700000000000)]]) = true
  ∧ ∃ b, toBsonValue (Value.vec [Value.i32 5, Value.string "x",
      Value.map [("t", Value.dateTime 1700000000000)]]) = Res.ok b :=
  ⟨by rfl,
   to_bson_value_total_on_encodable.1
     (Value.vec [Value.i32 5, Value.string "x",
       Value.map [("t", Value.dateTime 1700000000000)]]) (by rfl)⟩

/-- Casting a number below `2^63` through the `usize as i64` cast is the
identity. -/
theorem toI64_of_lt {n : Nat} (h : n < 2 ^ 63) : toI64 n = (n : Int) := by
  simp only [toI64]
  rw [Nat.mod_eq_of_lt (show n < 2 ^ 64 by omega), if_pos h]

/-- The wrapped page-skip arithmetic `(pageNumber - 1) * pageSize` agrees
with the mathematical value when `pageNumber ≥ 1` and the product fits in an
`i64`. -/
theorem pageSkip_arith {pn ps : Nat} (h1 : 1 ≤ pn) (h2 : (pn - 1) * ps < 2 ^ 63) :
    toI64 ((pn + (2 ^ 64 - 1)) * ps) = ((pn : Int) - 1) * (ps : Int) := by
  have hsplit : (pn + (2 ^ 64 - 1)) * ps = (pn - 1) * ps + 2 ^ 64 * ps := by
    have : pn + (2 ^ 64 - 1) = (pn - 1) + 2 ^ 64 := by omega
    rw [this, add_mul]
  unfold toI64
  rw [hsplit, Nat.add_mul_mod_self_left, Nat.mod_eq_of_lt (lt_trans h2 (by norm_num))]
  simp only [h2, if_pos]
  push_cast [Nat.cast_sub h1]
  ring

/-- C3 (counterexample): contrary to the claim, at a concrete compile the
raw skip/take path emits its limit stage under the native-prefixed key
`$limit`, while the page-based path emits its limit stage under the
unprefixed key `limit`. -/
theorem limit_stage_key_cx :
    buildQueryPipeline emptyModel emptyGraph .many false none none
      (some 5) (some 3) none none none none =
      .ok [[("$skip", .int64 3)], [("$limit", .int64 3)]]
  ∧ buildQueryPipeline emptyModel emptyGraph .many false none none
      none none (some 10) (some 2) none none =
      .ok [[("$skip", .int64 10)], [("limit", .int64 10)]] :=
  ⟨rfl, rfl⟩

/-- C3 (amended): in the assembled pipeline, the page-based
(pageNumber/pageSize) path emits its limit stage under the unprefixed key
`limit`, while the raw skip/take path emits its limit stage under the
native-prefixed key `$limit`. -/
theorem limit_stage_keys :
    (∀ (m : Model) (g : Graph) (qt : QueryPipelineType) (mm : Bool) (ps pn : Nat),
      buildQueryPipeline m g qt mm none none none none (some ps) (some pn) none none =
        .ok [[("$skip", .int64 (toI64 ((pn + (2 ^ 64 - 1)) * ps)))],
             [("limit", .int64 (toI64 ps))]])
  ∧ (∀ (m : Model) (g : Graph) (qt : QueryPipelineType) (mm : Bool) (tk sk : Nat),
      buildQueryPipeline m g qt mm none none (some tk) (some sk) none none none none =
        .ok [[("$skip", .int64 (toI64 sk))], [("$limit", .int64 (toI64 sk))]]) :=
  ⟨fun _ _ _ _ _ _ => rfl, fun _ _ _ _ _ _ => rfl⟩

/-- C5: in the raw pagination path the `$limit` stage is built from the skip
value — for every take value the emitted stage carries `skip`, not `take` —
and supplying take without skip (and without pageNumber/pageSize) aborts
fatally on the `unwrap` of the absent skip instead of returning a
recoverable error. -/
theorem raw_limit_built_from_skip :
    (∀ (m : Model) (g : Graph) (qt : QueryPipelineType) (mm : Bool) (tk sk : Nat),
      buildQueryPipeline m g qt mm none none (some tk) (some sk) none none none none =
        .ok [[("$skip", .int64 (toI64 sk))], [("$limit", .int64 (toI64 sk))]])
  ∧ (∀ (m : Model) (g : Graph) (qt : QueryPipelineType) (mm : Bool) (tk : Nat),
      buildQueryPipeline m g qt mm none none (some tk) none none none none none =
        .fatal) :=
  ⟨fun _ _ _ _ _ _ => rfl, fun _ _ _ _ _ => rfl⟩

/-- C8: when both pageNumber/pageSize and skip/take are supplied, only the
page-based stages are emitted — a skip of `(pageNumber - 1) * pageSize`
followed by a limit of `pageSize` — for every raw skip/take value, which is
therefore ignored. -/
theorem page_based_overrides_raw (m : Model) (g : Graph) (qt : QueryPipelineType)
    (mm : Bool) (tk sk ps pn : Nat) (h1 : 1 ≤ pn) (h2 : (pn - 1) * ps < 2 ^ 63)
    (h3 : ps < 2 ^ 63) :
    buildQueryPipeline m g qt mm none none (some tk) (some sk) (some ps) (some pn)
      none none =
      .ok [[("$skip", .int64 (((pn : Int) - 1) * (ps : Int)))],
           [("limit", .int64 (ps : Int))]] := by
  have harith := pageSkip_arith h1 h2
  have hps := toI64_of_lt h3
  calc buildQueryPipeline m g qt mm none none (some tk) (some sk) (some ps) (some pn)
        none none =
      Res.ok [[("$skip", Bson.int64 (toI64 ((pn + (2 ^ 64 - 1)) * ps)))],
              [("limit", Bson.int64 (toI64 ps))]] := rfl
    _ = Res.ok [[("$skip", Bson.int64 (((pn : Int) - 1) * (ps : Int)))],
                [("limit", Bson.int64 (ps : Int))]] := by rw [harith, hps]

/-- Closed instance of `page_based_overrides_raw` with the bound hypotheses
discharged at page 2 of size 10 against raw take 7 / skip 4. -/
theorem page_based_overrides_raw_witness :
    buildQueryPipeline emptyModel emptyGraph .many false none none
      (some 7) (some 4) (some 10) (some 2) none none =
      .ok [[("$skip", .int64 10)], [("limit", .int64 10)]] := by
  have h := page_based_overrides_raw emptyModel emptyGraph .many false 7 4 10 2
    (by norm_num) (by norm_num) (by norm_num)
  simpa using h

/-- C4: compiling an `in` filter over the enum `Color` whose elements are
both valid member strings does not yield an `$in` predicate — the loop
parses the whole array (the loop variable is unused), so every non-empty
array fails with `WrongInputType`; a single member string through `equals`
parses fine, isolating the slip to the array loop. -/
theorem enum_in_parses_whole_array :
    parseBsonWhereEntry (.enumOf "Color")
      (.obj [("in", .arr [.str "red", .str "blue"])]) colorGraph =
      .err .wrongInputType
  ∧ parseBsonWhereEntry (.enumOf "Color") (.obj [("equals", .str "red")]) colorGraph =
      .ok (.document [("$eq", .string "red")])
  ∧ parseEnum (.str "red") "Color" colorGraph = .ok (.string "red")
  ∧ parseEnum (.str "blue") "Color" colorGraph = .ok (.string "blue") :=
  ⟨rfl, rfl, rfl, rfl⟩

/-- C7: `validate_where_unique` succeeds exactly when the where-value is a
JSON object whose key-set equals (as a set) one of the model's unique
key-sets; a missing where-section is `MissingInputSection`, a non-object
where-value is `WrongJsonFormat`, and a key-set matching no unique key-set
is `FieldIsNotUnique`. -/
theorem validate_where_unique_spec (m : Model) (w : Option Json) :
    (validateWhereUnique m w = .ok () ↔
      ∃ kvs, w = some (.obj kvs) ∧
        m.uniqueQueryKeys.any (fun u => strSetEq (kvs.map Prod.fst) u) = true)
  ∧ (w = none → validateWhereUnique m w = .err .missingInputSection)
  ∧ (∀ j, w = some j → j.isObject = false →
      validateWhereUnique m w = .err .wrongJsonFormat)
  ∧ (∀ kvs, w = some (.obj kvs) →
      m.uniqueQueryKeys.any (fun u => strSetEq (kvs.map Prod.fst) u) = false →
      validateWhereUnique m w = .err .fieldIsNotUnique) := by
  refine ⟨?_, ?_, ?_, ?_⟩
  · constructor
    · intro h
      match w with
      | none => simp [validateWhereUnique] at h
      | some (.obj kvs) =>
          refine ⟨kvs, rfl, ?_⟩
          by_contra hres
          simp only [Bool.not_eq_true] at hres
          simp [validateWhereUnique, hres] at h
      | some .null | some (.bool _) | some (.intNum _) | some (.floatNum _)
      | some (.str _) | some (.arr _) =>
          simp [validateWhereUnique] at h
    · rintro ⟨kvs, rfl, hany⟩
      simp [validateWhereUnique, hany]
  · rintro rfl
    rfl
  · rintro j rfl hj
    cases j <;> simp at hj <;> rfl
  · rintro kvs rfl hany
    simp [validateWhereUnique, hany]

/-- Closed instance of `validate_where_unique_spec` running the spec's
examples against the `Post` model: `{"id": 1}` and `{"slug": "x"}` accepted,
`{"title": "x"}` rejected as non-unique, a missing where rejected as a
missing input section. -/
theorem validate_where_unique_spec_witness :
    validateWhereUnique postModel (some (.obj [("id", .intNum 1)])) = .ok ()
  ∧ validateWhereUnique postModel (some (.obj [("slug", .str "x")])) = .ok ()
  ∧ validateWhereUnique postModel (some (.obj [("title", .str "x")])) =
      .err .fieldIsNotUnique
  ∧ validateWhereUnique postModel none = .err .missingInputSection :=
  ⟨(validate_where_unique_spec postModel (some (.obj [("id", .intNum 1)]))).1.mpr
     ⟨[("id", .intNum 1)], rfl, by rfl⟩,
   (validate_where_unique_spec postModel (some (.obj [("slug", .str "x")]))).1.mpr
     ⟨[("slug", .str "x")], rfl, by rfl⟩,
   (validate_where_unique_spec postModel
      (some (.obj [("title", .str "x")]))).2.2.2 [("title", .str "x")] rfl (by rfl),
   (validate_where_unique_spec postModel none).2.1 rfl⟩

/-- Pagination stages carry only `$skip`, `limit` and `$limit` keys, so a
pipeline built with an empty match document contains no `$match` stage. -/
theorem no_match_stage_of_empty_where (m : Model) (g : Graph)
    (qt : QueryPipelineType) (mm : Bool) (w : Option Json)
    (tk sk ps pn : Option Nat) (res : List BDoc)
    (hw : w = none ∨ w = some (.obj []))
    (h : buildQueryPipeline m g qt mm w none tk sk ps pn none none = .ok res) :
    ∀ d ∈ res, docGet d "$match" = none := by
  rcases hw with rfl | rfl <;>
    rcases ps with _ | ps <;> rcases pn with _ | pn <;>
    rcases sk with _ | sk <;> rcases tk with _ | tk <;>
    first
      | (injection h with h'; subst h'; intro d hd; fin_cases hd <;> rfl)
      | injection h

/-- C9 (counterexample): the claim fails for "any field type" — on a
query-able `Date` field, the well-formed scalar `"2023-05-01"` drives the
compiler into the codec's fatal date arm, so no match document is yielded
at all (and a `Decimal` field aborts on any scalar via the `todo!` arm). -/
theorem where_any_field_type_cx :
    parseBsonWhereEntry .date (.str "2023-05-01") emptyGraph = Res.fatal
  ∧ buildWhereInput dateModel emptyGraph
      (some (.obj [("d", .str "2023-05-01")])) = Res.fatal
  ∧ (¬ ∃ doc, buildWhereInput dateModel emptyGraph
      (some (.obj [("d", .str "2023-05-01")])) = Res.ok doc)
  ∧ parseBsonWhereEntry .decimal (.intNum 1) emptyGraph = Res.fatal := by
  refine ⟨by rfl, by rfl, ?_, by rfl⟩
  rintro ⟨doc, hd⟩
  rw [show buildWhereInput dateModel emptyGraph
      (some (.obj [("d", .str "2023-05-01")])) = Res.fatal by rfl] at hd
  exact Res.noConfusion hd

/-- C9 (amended): a where-entry on a query-able field whose scalar parse
succeeds (which excludes `Decimal` fields, and `Date` fields with
well-formed values, whose parses abort fatally) compiles to exactly one
predicate keyed by the field's storage column name (not its logical name);
an absent or empty where-object yields an empty match document; and a
pipeline compiled from an empty match document contains no `$match`
stage. -/
theorem where_column_name_and_empty_match (m : Model) (g : Graph) :
    buildWhereInput m g none = .ok []
  ∧ buildWhereInput m g (some (.obj [])) = .ok []
  ∧ (∀ fname f v b, m.queryKeys.contains fname = true →
      m.field fname = some f →
      v.isObject = false →
      parseBsonWhereEntry f.fieldType v g = .ok b →
      buildWhereInput m g (some (.obj [(fname, v)])) = .ok [(f.columnName, b)])
  ∧ (∀ (qt : QueryPipelineType) (mm : Bool) (tk sk ps pn : Option Nat)
      (res : List BDoc),
      buildQueryPipeline m g qt mm none none tk sk ps pn none none = .ok res →
      ∀ d ∈ res, docGet d "$match" = none) := by
  refine ⟨rfl, rfl, ?_, ?_⟩
  · intro fname f v b hqk hf hscalar hp
    have hmem : fname ∈ m.queryKeys := by simpa using hqk
    simp [buildWhereInput, buildWhereEntries, hmem, hf, hp, docInsert]
  · intro qt mm tk sk ps pn res h
    exact no_match_stage_of_empty_where m g qt mm none tk sk ps pn res (Or.inl rfl) h

/-- Closed instance of `where_column_name_and_empty_match`: the `age` filter
compiles onto the storage column `age_col`, and a raw-paginated pipeline
with no where-section carries no `$match` stage. -/
theorem where_column_name_and_empty_match_witness :
    buildWhereInput ageModel emptyGraph
      (some (.obj [("age", .intNum 21)])) = .ok [("age_col", .int64 21)]
  ∧ ∀ d ∈ [[("$skip", Bson.int64 3)], [("$limit", Bson.int64 3)]],
      docGet d "$match" = none :=
  ⟨(where_column_name_and_empty_match ageModel emptyGraph).2.2.1 "age"
      { name := "age", columnName := "age_col", fieldType := .i32 }
      (.intNum 21) (.int64 21) (by rfl) (by rfl) (by rfl) (by rfl),
   (where_column_name_and_empty_match ageModel emptyGraph).2.2.2 .many false
      (some 5) (some 3) none none
      [[("$skip", Bson.int64 3)], [("$limit", Bson.int64 3)]] (by rfl)⟩

/-- C10: for a string field, `contains` compiles to a regex predicate whose
pattern is the literal-escaped input, `startsWith` prepends `^` and
`endsWith` appends `$` to the escaped input, `matches` passes the pattern
through verbatim, and a sibling `mode: "caseInsensitive"` key sets the `i`
option on whichever regex operator is present; on `a.b` the escaped pattern
is the literal `a\.b`. -/
theorem string_regex_operators :
    (∀ (s : String) (g : Graph),
      parseBsonWhereEntry .string (.obj [("contains", .str s)]) g =
        .ok (.document [("$regex", .regex (regexEscape s) "")])
      ∧ parseBsonWhereEntry .string (.obj [("startsWith", .str s)]) g =
        .ok (.document [("$regex", .regex ("^" ++ regexEscape s) "")])
      ∧ parseBsonWhereEntry .string (.obj [("endsWith", .str s)]) g =
        .ok (.document [("$regex", .regex (regexEscape s ++ "$") "")])
      ∧ parseBsonWhereEntry .string (.obj [("matches", .str s)]) g =
        .ok (.document [("$regex", .regex s "")])
      ∧ parseBsonWhereEntry .string
          (.obj [("contains", .str s), ("mode", .str "caseInsensitive")]) g =
        .ok (.document [("$regex", .regex (regexEscape s) "i")])
      ∧ parseBsonWhereEntry .string
          (.obj [("endsWith", .str s), ("mode", .str "caseInsensitive")]) g =
        .ok (.document [("$regex", .regex (regexEscape s ++ "$") "i")])
      ∧ parseBsonWhereEntry .string
          (.obj [("matches", .str s), ("mode", .str "caseInsensitive")]) g =
        .ok (.document [("$regex", .regex s "i")])
      ∧ parseBsonWhereEntry .string
          (.obj [("mode", .str "caseInsensitive"), ("startsWith", .str s)]) g =
        .ok (.document [("$regex", .regex ("^" ++ regexEscape s) "i")]))
  ∧ regexEscape "a.b" = "a\\.b" :=
  ⟨fun _ _ => ⟨rfl, rfl, rfl, rfl, rfl, rfl, rfl, rfl⟩, rfl⟩

end Agg
